import Mathlib

/-!
Verification development for the Pwscf deck engine
(`src/espresso/functional.py` of pylada-light).

The Python source is embedded shallowly: pure data (namelists, cards,
species registry) becomes Lean structures; each method becomes a Lean
function on an explicit `Pwscf` state; fallible paths return
`Except PyExc _`, where `PyExc` records which Python exception the
source raises (including the exceptions produced by defects in the
source, such as reads of unbound local variables).

External collaborators that are out of scope for the repository
(the tokenizer, the Fortran formatter, the on-disk pseudopotential
check, the periodic table) enter as explicit parameters; repository
classes that are not part of this file (`Namelist`, `Card`, `Specie`)
are modelled from the specification, as marked on each definition.
-/

namespace Pylada

/-- Scalar values held by a namelist: the spec (§3) allows strings,
integers, booleans and an absent/none value. -/
inductive PValue
  | none
  | str (s : String)
  | int (n : Int)
  | bool (b : Bool)
deriving Repr, DecidableEq

/-- Python exception outcomes that the embedded functions can produce.
`nameError ident` models `NameError` from reading an unbound global
`ident`; `unboundLocalError ident` models `UnboundLocalError` from
reading a local before assignment; `attributeError attr` models
`AttributeError` on a missing attribute; `internalError msg` models
`error.internal(msg)` raised by `write`. -/
inductive PyExc
  | nameError (ident : String)
  | unboundLocalError (ident : String)
  | attributeError (attr : String)
  | internalError (msg : String)
deriving Repr, DecidableEq

/-- Association-list lookup, first binding wins.  Models lookup in a
Python dict / attribute mapping (whose keys are unique). -/
def alookup {α : Type} : List (String × α) → String → Option α
  | [], _ => Option.none
  | (k2, v) :: rest, k => if k2 = k then some v else alookup rest k

/-- Association-list update: replaces the binding in place if the key is
present, else appends.  Models Python dict assignment `d[k] = v`
(insertion order preserved, later assignment keeps the slot). -/
def aset {α : Type} : List (String × α) → String → α → List (String × α)
  | [], k, v => [(k, v)]
  | (k2, v2) :: rest, k, v =>
    if k2 = k then (k, v) :: rest else (k2, v2) :: aset rest k v

/-- Association-list removal.  Models `delattr`/`del d[k]`; on the
unique-key states produced by dict semantics this removes exactly the
one binding for `k`. -/
def aremove {α : Type} : List (String × α) → String → List (String × α)
  | [], _ => []
  | (k2, v) :: rest, k =>
    if k2 = k then aremove rest k else (k2, v) :: aremove rest k

/-- Modelled from the spec: the `Namelist` class (§4.1) is repository
code not under `src/`.  A namelist is a mapping from setting name to
scalar value with unique names and insertion order preserved. -/
structure Namelist where
  pairs : List (String × PValue)
deriving Repr, DecidableEq

/-- Modelled from the spec: `Namelist.set` (§4.1 `set(key, value)`);
also the behaviour of Python `setattr` on a namelist, which stores the
attribute in the mapping (this is how `read` transplants keys). -/
def Namelist.set (nl : Namelist) (k : String) (v : PValue) : Namelist :=
  ⟨aset nl.pairs k v⟩

/-- Modelled from the spec: `Namelist.get` (§4.1 `get(key)`). -/
def Namelist.get (nl : Namelist) (k : String) : Option PValue :=
  alookup nl.pairs k

/-- Modelled from the spec: `Namelist.names`/`keys()` (§4.1). -/
def Namelist.names (nl : Namelist) : List String :=
  nl.pairs.map Prod.fst

/-- Modelled from the spec: `Namelist.clear` (§4.1) removes all keys
and keeps the namelist alive. -/
def Namelist.clear (_ : Namelist) : Namelist :=
  ⟨[]⟩

/-- Modelled from the spec: the `Card` class (§4.2) is repository code
not under `src/`.  A card is `(name, subtitle, value)` with `name`
immutable after construction.  `extras` additionally models ordinary
Python attribute assignment on the card object for attribute names
other than `subtitle`/`value` (reachable through `read`'s transplant
loop when a file namelist is named like a schema card field). -/
structure Card where
  name : String
  subtitle : PValue := PValue.none
  value : PValue := PValue.none
  extras : List (String × PValue) := []
deriving Repr, DecidableEq

/-- Modelled from the spec: §4.4 step 1 wipes every schema field's
content but not its identity; for a card that is its subtitle, value
and dynamically attached attributes, never its name. -/
def Card.clearContent (c : Card) : Card :=
  ⟨c.name, PValue.none, PValue.none, []⟩

/-- Modelled from the spec and Python attribute semantics: `setattr` on
a card stores into `subtitle`/`value` when so named, else attaches a
plain attribute. -/
def Card.setAttr (c : Card) (k : String) (v : PValue) : Card :=
  if k = "subtitle" then { c with subtitle := v }
  else if k = "value" then { c with value := v }
  else { c with extras := aset c.extras k v }

/-- Modelled from the spec: a pseudopotential descriptor (§3 "Species
entry") with a resolvable file path and an optional mass override. -/
structure Pseudo where
  filename : String
  mass : Option Nat := Option.none
deriving Repr, DecidableEq

/-- Modelled from the spec: the `Specie` class (`add_specie` wraps the
given pseudopotential in a `Specie`); not under `src/`. -/
structure Specie where
  pseudo : Pseudo
deriving Repr, DecidableEq

/-- An atom of the external structure type: only its `type` label (the
atom-type string `u.type`) is consumed by this file. -/
structure Atom where
  type : String
deriving Repr, DecidableEq

/-- State of a `Pwscf` deck (`Pwscf.__init__`, src lines 72-99):
the four schema fields (`control`, `system`, `electrons` namelists and
the `k_points` card, created with subtitle `gamma`), the
extension-namelist registry `self.__namelists`, the extension-card
registry `self.__cards`, and the species registry `self.species`.
Defaults give the freshly constructed deck. -/
structure Pwscf where
  control : Namelist := ⟨[]⟩
  system : Namelist := ⟨[]⟩
  electrons : Namelist := ⟨[]⟩
  k_points : Card := { name := "K_POINTS", subtitle := PValue.str "gamma" }
  namelists : List (String × Namelist) := []
  cards : List (String × Card) := []
  species : List (String × Specie) := []
deriving Repr, DecidableEq

/-- A freshly constructed deck (`Pwscf()`). -/
def Pwscf.init : Pwscf := {}

/-- The schema field names, `self.trait_names()` in declaration order. -/
def traitNames : List String :=
  ["control", "system", "electrons", "k_points"]

/-- `Pwscf.__private_cards` (src line 82): card names handled
internally. -/
def privateCards : List String :=
  ["atomic_species"]

/-- Names bound on a `Pwscf` instance before `__getattr__` is ever
consulted: the schema traits, the `kpoints` alias property, the
`species` instance attribute and the method names.  Attribute
resolution of these never reaches the extension registries. -/
def instanceBound : List String :=
  ["control", "system", "electrons", "k_points", "kpoints", "species",
   "add_specie", "write", "read", "add_card", "add_namelist",
   "_bring_up", "_atomic_species_card", "trait_names"]

/-- A named section handle: what deck attribute resolution yields for
section names (either a namelist or a card). -/
inductive Section
  | nl (n : Namelist)
  | card (c : Card)
deriving Repr, DecidableEq

/-- Shallow embedding of attribute resolution of section names on a
deck: Python first resolves declared attributes (the schema traits and
the `kpoints` alias), and only when normal lookup fails calls
`Pwscf.__getattr__` (src lines 179-185), which consults the
extension-card registry `self.__cards`, then the extension-namelist
registry `self.__namelists`, and otherwise defers to
`super().__getattr__`, which raises `AttributeError`.  Non-section
instance attributes (`species`, methods) are outside this model; see
`instanceBound`. -/
def resolveAttr (p : Pwscf) (name : String) : Except PyExc Section :=
  if name = "control" then .ok (.nl p.control)
  else if name = "system" then .ok (.nl p.system)
  else if name = "electrons" then .ok (.nl p.electrons)
  else if name = "k_points" then .ok (.card p.k_points)
  else if name = "kpoints" then .ok (.card p.k_points)
  else
    match alookup p.cards name with
    | some c => .ok (.card c)
    | Option.none =>
      match alookup p.namelists name with
      | some n => .ok (.nl n)
      | Option.none => .error (.attributeError name)

/-- Shallow embedding of `Pwscf.add_card` (src lines 187-199).  The
source reads:
`if isinstance(getattr(self, name, None), Card): card = getattr(self, name)`
`elif card.name in self.__private_cards: ...` — in the `elif` branch
(and in the `else` branch guarded by it) the local `card` has not been
assigned yet, so evaluating `card.name` raises `UnboundLocalError`.
Hence the call succeeds only when `name` already resolves to a card
(the `k_points` trait, its `kpoints` alias, or an extension card),
whose `subtitle` and `value` are then overwritten in place; every
other name raises. -/
def add_card (p : Pwscf) (name : String) (value : PValue) (subtitle : PValue) :
    Except PyExc Pwscf :=
  if name = "k_points" ∨ name = "kpoints" then
    .ok { p with k_points := { p.k_points with subtitle := subtitle, value := value } }
  else if name = "control" ∨ name = "system" ∨ name = "electrons" then
    -- getattr finds a Namelist, not a Card: falls into the elif, `card` unbound
    .error (.unboundLocalError "card")
  else
    match alookup p.cards name with
    | some c =>
      .ok { p with cards := aset p.cards name { c with subtitle := subtitle, value := value } }
    | Option.none =>
      -- name resolves to an extension namelist or to nothing: either way
      -- isinstance(..., Card) is false and the elif reads unbound `card`
      .error (.unboundLocalError "card")

/-- Parsed content of an input file, as delivered by the external
tokenizer (out of scope per spec §1): the namelist records
(`Namelist.read`, modelled from spec §4.4 step 3 as merging the file's
namelists into the intermediate collection) and the ordered card
records (`read_cards`). -/
structure PFile where
  namelists : List (String × Namelist) := []
  cards : List Card := []
deriving Repr, DecidableEq

/-- One step of the transplant loop of `Pwscf.read` (src lines
161-167): for a trait name found in the intermediate collection,
remove it from the collection (`delattr`) and copy each of its
key/value pairs onto the schema field with `setattr`.  For the three
namelist fields `setattr` stores into the namelist mapping; for the
`k_points` card it stores via `Card.setAttr`.  Distinct trait names
touch disjoint state, so iterating them in declaration order is
observationally the Python iteration over `set(trait_names())`. -/
def transplantOne (pr : Pwscf × List (String × Namelist)) (tname : String) :
    Pwscf × List (String × Namelist) :=
  match alookup pr.2 tname with
  | Option.none => pr
  | some newtrait =>
    let reg := aremove pr.2 tname
    let p := pr.1
    if tname = "control" then
      ({ p with control := newtrait.pairs.foldl (fun nl kv => nl.set kv.1 kv.2) p.control }, reg)
    else if tname = "system" then
      ({ p with system := newtrait.pairs.foldl (fun nl kv => nl.set kv.1 kv.2) p.system }, reg)
    else if tname = "electrons" then
      ({ p with electrons := newtrait.pairs.foldl (fun nl kv => nl.set kv.1 kv.2) p.electrons }, reg)
    else if tname = "k_points" then
      ({ p with k_points := newtrait.pairs.foldl (fun c kv => c.setAttr kv.1 kv.2) p.k_points }, reg)
    else (p, reg)

/-- Dispatch of one parsed card record in `Pwscf.read` (src lines
170-177): a card named like a schema field overwrites that field's
`subtitle` and `value` (for the namelist fields, Python `setattr`
stores `subtitle`/`value` as keys of the namelist); a card whose name
is in `__private_cards` is logged at debug level and discarded; any
other card is stored in the extension-card registry under its name. -/
def dispatchCard (p : Pwscf) (c : Card) : Pwscf :=
  if c.name = "control" then
    { p with control := (p.control.set "subtitle" c.subtitle).set "value" c.value }
  else if c.name = "system" then
    { p with system := (p.system.set "subtitle" c.subtitle).set "value" c.value }
  else if c.name = "electrons" then
    { p with electrons := (p.electrons.set "subtitle" c.subtitle).set "value" c.value }
  else if c.name = "k_points" then
    { p with k_points := { p.k_points with subtitle := c.subtitle, value := c.value } }
  else if c.name = "atomic_species" then
    -- logger.debug('%s is handled internally'): discarded
    p
  else
    { p with cards := aset p.cards c.name c }

/-- Shallow embedding of `Pwscf.read` (src lines 142-177).
Steps, in source order: (1) if `clear`, empty the intermediate/extension
namelist collection, reset the extension-card registry to `{}`, and
call `clear()` on every trait value that has one (the three schema
namelists; the `k_points` card's content clearing is modelled from spec
§4.4 step 1); (2) `self.__namelists.read(filename)` merges the file's
namelist records into the collection; (3) transplant every collection
entry named like a trait into the schema field and delete it from the
collection; (4) dispatch each parsed card record.  Path expansion and
logging are I/O-free of deck state and omitted. -/
def read (p0 : Pwscf) (file : PFile) (clear : Bool) : Pwscf :=
  let p1 :=
    if clear then
      { p0 with control := p0.control.clear, system := p0.system.clear,
                electrons := p0.electrons.clear,
                k_points := p0.k_points.clearContent,
                namelists := [], cards := [] }
    else p0
  let reg0 := file.namelists.foldl (fun acc kv => aset acc kv.1 kv.2) p1.namelists
  let pr := traitNames.foldl transplantOne (p1, reg0)
  let p2 := { pr.1 with namelists := pr.2 }
  file.cards.foldl dispatchCard p2

/-- The content handed to the external formatter `write_pwscf_input`:
the merged namelist set and the final card sequence. -/
structure POutput where
  namelists : List (String × Namelist)
  cards : List Card
deriving Repr, DecidableEq

/-- Shallow embedding of `Pwscf.write` (src lines 106-140).
In source order: copy the extension-namelist collection and the
extension-card registry; walk the traits, storing each schema namelist
into the namelist copy and, for each schema card (`k_points`), raising
`error.internal("Found two cards with the same name")` if a card of
that name is already present, else inserting it; then, if a structure
is supplied, the source calls `self._add_atomic_species(structure,
cards)` — no such attribute exists (the method is named
`_atomic_species_card`), and `__getattr__` finds it in neither
registry, so normal Python resolution raises `AttributeError` before
any output is produced.  With no structure the assembled content is
delivered to the formatter. -/
def write (p : Pwscf) (structureArg : Option (List Atom)) : Except PyExc POutput :=
  let nls := aset (aset (aset p.namelists "control" p.control) "system" p.system)
      "electrons" p.electrons
  if (alookup p.cards p.k_points.name).isSome then
    .error (.internalError "Found two cards with the same name")
  else
    let cards := (p.cards ++ [(p.k_points.name, p.k_points)]).map Prod.snd
    match structureArg with
    | Option.none => .ok ⟨nls, cards⟩
    | some _ => .error (.attributeError "_add_atomic_species")

/-- Admissible enumerations of `set([u.type for u in structure])`:
Python guarantees only that iterating a set yields each distinct
element exactly once, in an order that (for strings) depends on the
per-run hash seed.  `SetEnum types order` says `order` is one such
enumeration of the distinct elements of `types`. -/
def SetEnum (types : List String) (order : List String) : Prop :=
  order.Nodup ∧ (∀ s ∈ order, s ∈ types) ∧ (∀ s ∈ types, s ∈ order)

/-- Loop body of `Pwscf._atomic_species_card` (src lines 232-247), one
iteration per enumerated specie label.  The source of each branch:
missing specie — `raise error.RuntimeError(msg)` where no `error` is
bound in this function's scope (the module never imports it), so
Python raises `NameError` for `error`; failed pseudo-existence check
(src lines 237-241, whose `if not Specie(pseudo.file_exists(...)`
text is syntactically mangled; the evident check is embedded, its
`raise error.RuntimeError` hitting the same unbound `error`); mass
lookup — `mass = getattr(getattr(periodic_table, name, None), 'mass')`
reads `name`, which is bound nowhere in the function, raising
`NameError`, so the periodic-table fallback and the default `1` are
unreachable; line emission —
`result.value += "%s %s %s\n" % (specie, mass, specie.pseudo)`
evaluates `specie.pseudo` on the string `specie`, raising
`AttributeError`.  Consequently no iteration ever completes and the
loop never advances past its first element. -/
def atomic_species_go (p : Pwscf) (fileExists : Pseudo → PValue → Bool) :
    List String → Card → Except PyExc Card
  | [], result => .ok result
  | specie :: _rest, _result =>
    match alookup p.species specie with
    | Option.none => .error (.nameError "error")
    | some sp =>
      if fileExists sp.pseudo ((p.control.get "pseudo_dir").getD PValue.none) then
        match sp.pseudo.mass with
        | Option.none => .error (.nameError "name")
        | some _ => .error (.attributeError "pseudo")
      else .error (.nameError "error")

/-- Shallow embedding of `Pwscf._atomic_species_card` (src lines
226-248): builds `Card('atomic_species', value="")` and iterates the
set of atom-type labels in an admissible enumeration `order`
(see `SetEnum`); `fileExists` is the external pseudopotential
existence check, fed `self.control.pseudo_dir`. -/
def atomic_species_card (p : Pwscf) (order : List String)
    (fileExists : Pseudo → PValue → Bool) : Except PyExc Card :=
  atomic_species_go p fileExists order { name := "atomic_species", value := PValue.str "" }

/-- Shallow embedding of `Pwscf.add_specie` (src lines 101-104): wraps
the pseudopotential in a `Specie` and stores it under `name`, last
write winning. -/
def add_specie (p : Pwscf) (name : String) (pseudo : Pseudo) : Pwscf :=
  { p with species := aset p.species name ⟨pseudo⟩ }

instance {ε α : Type} [DecidableEq ε] [DecidableEq α] : DecidableEq (Except ε α) :=
  fun a b =>
    match a, b with
    | .ok x, .ok y =>
      if h : x = y then .isTrue (by rw [h])
      else .isFalse (fun hh => h (by cases hh; rfl))
    | .error x, .error y =>
      if h : x = y then .isTrue (by rw [h])
      else .isFalse (fun hh => h (by cases hh; rfl))
    | .ok _, .error _ => .isFalse (fun hh => by cases hh)
    | .error _, .ok _ => .isFalse (fun hh => by cases hh)

instance (a b : List String) : Decidable (SetEnum a b) :=
  inferInstanceAs (Decidable (b.Nodup ∧ (∀ s ∈ b, s ∈ a) ∧ (∀ s ∈ a, s ∈ b)))

/-- The schema namelist field bound to a given trait name (used to
state properties uniformly over `control`/`system`/`electrons`). -/
def getNlField (p : Pwscf) (t : String) : Namelist :=
  if t = "control" then p.control
  else if t = "system" then p.system
  else if t = "electrons" then p.electrons
  else ⟨[]⟩

/-- Pseudopotential-existence check that always succeeds, as stipulated
by the species-resolution scenario of the spec. -/
def alwaysExists : Pseudo → PValue → Bool := fun _ _ => true

/-- Pseudopotential registered for `Si` in the spec scenario. -/
def pseudoA : Pseudo := { filename := "A.upf" }

/-- Pseudopotential registered for `O` in the spec scenario. -/
def pseudoB : Pseudo := { filename := "B.upf" }

/-- The structure of the spec scenario: atom types `Si`, `O`, `Si`. -/
def sioAtoms : List Atom := [⟨"Si"⟩, ⟨"O"⟩, ⟨"Si"⟩]

/-- Deck with species registered for `Si` and `O`. -/
def sioDeck : Pwscf := { species := [("Si", ⟨pseudoA⟩), ("O", ⟨pseudoB⟩)] }

/-- Extension namelist used to exhibit the resolution order. -/
def nlFoo : Namelist := ⟨[("a", PValue.int 1)]⟩

/-- Extension card used to exhibit the resolution order. -/
def cardFoo : Card := { name := "foo" }

/-- Deck holding both an extension namelist and an extension card under
the same name `foo`. -/
def deckFoo : Pwscf := { namelists := [("foo", nlFoo)], cards := [("foo", cardFoo)] }

/-- Deck whose only registered specie `Si` has no mass override. -/
def siNoMassDeck : Pwscf := { species := [("Si", ⟨{ filename := "Si.upf" }⟩)] }

/-- Deck whose only registered specie `Si` carries a mass override. -/
def siMassDeck : Pwscf :=
  { species := [("Si", ⟨{ filename := "Si.upf", mass := some 28 }⟩)] }

/-- Deck whose extension-card registry holds a card named like the
schema `k_points` card. -/
def dupDeck : Pwscf := { cards := [("K_POINTS", { name := "K_POINTS" })] }

/-- The structure of the missing-specie scenario: atom types `["Fe"]`. -/
def feAtoms : List Atom := [⟨"Fe"⟩]

/-- File containing only a card with the reserved name. -/
def reservedFile : PFile :=
  { cards := [{ name := "atomic_species", value := PValue.str "Si 28 A.upf" }] }

/-- Fresh-deck extension namelist used by the schema-merge scenario. -/
def nbndPairs : List (String × PValue) := [("nbnd", PValue.int 8)]

theorem alookup_aset_self {α : Type} (l : List (String × α)) (k : String) (v : α) :
    alookup (aset l k v) k = some v := by
  induction l with
  | nil => simp [aset, alookup]
  | cons hd tl ih =>
    by_cases h : hd.1 = k
    · simp [aset, h, alookup]
    · simp [aset, h, alookup, ih]

theorem alookup_aset_ne {α : Type} (l : List (String × α)) (k k2 : String) (v : α)
    (h : k ≠ k2) : alookup (aset l k v) k2 = alookup l k2 := by
  induction l with
  | nil => simp [aset, alookup, h]
  | cons hd tl ih =>
    obtain ⟨k3, v3⟩ := hd
    by_cases h1 : k3 = k
    · subst h1
      simp [aset, alookup, h]
    · by_cases h2 : k3 = k2
      · subst h2
        simp [aset, h1, alookup]
      · simp [aset, h1, alookup, h2, ih]

theorem alookup_aremove_self {α : Type} (l : List (String × α)) (k : String) :
    alookup (aremove l k) k = Option.none := by
  induction l with
  | nil => simp [aremove, alookup]
  | cons hd tl ih =>
    obtain ⟨k3, v3⟩ := hd
    by_cases h : k3 = k
    · simpa [aremove, h] using ih
    · simpa [aremove, h, alookup] using ih

theorem alookup_aremove_ne {α : Type} (l : List (String × α)) (k k2 : String)
    (h : k ≠ k2) : alookup (aremove l k) k2 = alookup l k2 := by
  induction l with
  | nil => simp [aremove, alookup]
  | cons hd tl ih =>
    obtain ⟨k3, v3⟩ := hd
    by_cases h1 : k3 = k
    · subst h1
      simpa [aremove, alookup, h] using ih
    · by_cases h2 : k3 = k2
      · subst h2
        simp [aremove, h1, alookup]
      · simpa [aremove, h1, alookup, h2] using ih

theorem Namelist.get_set_self (nl : Namelist) (k : String) (v : PValue) :
    (nl.set k v).get k = some v :=
  alookup_aset_self nl.pairs k v

theorem Namelist.get_set_ne (nl : Namelist) (k k2 : String) (v : PValue)
    (h : k ≠ k2) : (nl.set k v).get k2 = nl.get k2 :=
  alookup_aset_ne nl.pairs k k2 v h

theorem get_foldl_set_notmem (pairs : List (String × PValue)) (nl : Namelist)
    (k : String) (h : k ∉ pairs.map Prod.fst) :
    (pairs.foldl (fun acc kv => acc.set kv.1 kv.2) nl).get k = nl.get k := by
  induction pairs generalizing nl with
  | nil => rfl
  | cons hd tl ih =>
    simp only [List.map_cons, List.mem_cons] at h
    push_neg at h
    simp only [List.foldl_cons]
    rw [ih (nl.set hd.1 hd.2) h.2, Namelist.get_set_ne nl hd.1 k hd.2 (fun hh => h.1 hh.symm)]

theorem get_foldl_set (pairs : List (String × PValue)) (nl : Namelist) (k : String)
    (h : (pairs.map Prod.fst).Nodup) :
    (pairs.foldl (fun acc kv => acc.set kv.1 kv.2) nl).get k =
      (match alookup pairs k with
       | some v => some v
       | Option.none => nl.get k) := by
  induction pairs generalizing nl with
  | nil => rfl
  | cons hd tl ih =>
    simp only [List.map_cons, List.nodup_cons] at h
    simp only [List.foldl_cons]
    by_cases hk : hd.1 = k
    · subst hk
      rw [get_foldl_set_notmem tl (nl.set hd.1 hd.2) hd.1 h.1]
      simp [alookup, Namelist.get_set_self]
    · rw [ih (nl.set hd.1 hd.2) h.2]
      simp only [alookup, hk, if_false]
      cases alookup tl k with
      | none => simp [Namelist.get_set_ne nl hd.1 k hd.2 hk]
      | some v => simp

theorem transplantOne_species (pr : Pwscf × List (String × Namelist)) (t : String) :
    (transplantOne pr t).1.species = pr.1.species := by
  unfold transplantOne
  cases alookup pr.2 t with
  | none => rfl
  | some nt => by_cases h1 : t = "control" <;> by_cases h2 : t = "system" <;>
      by_cases h3 : t = "electrons" <;> by_cases h4 : t = "k_points" <;>
      simp [h1, h2, h3, h4]

theorem transplantOne_cards (pr : Pwscf × List (String × Namelist)) (t : String) :
    (transplantOne pr t).1.cards = pr.1.cards := by
  unfold transplantOne
  cases alookup pr.2 t with
  | none => rfl
  | some nt => by_cases h1 : t = "control" <;> by_cases h2 : t = "system" <;>
      by_cases h3 : t = "electrons" <;> by_cases h4 : t = "k_points" <;>
      simp [h1, h2, h3, h4]

theorem transplant_foldl_species (ts : List String)
    (pr : Pwscf × List (String × Namelist)) :
    (ts.foldl transplantOne pr).1.species = pr.1.species := by
  induction ts generalizing pr with
  | nil => rfl
  | cons hd tl ih => rw [List.foldl_cons, ih, transplantOne_species]

theorem transplant_foldl_cards (ts : List String)
    (pr : Pwscf × List (String × Namelist)) :
    (ts.foldl transplantOne pr).1.cards = pr.1.cards := by
  induction ts generalizing pr with
  | nil => rfl
  | cons hd tl ih => rw [List.foldl_cons, ih, transplantOne_cards]

theorem dispatchCard_species (p : Pwscf) (c : Card) :
    (dispatchCard p c).species = p.species := by
  unfold dispatchCard
  split <;> try rfl
  split <;> try rfl
  split <;> try rfl
  split <;> try rfl
  split <;> rfl

theorem dispatch_foldl_species (cs : List Card) (p : Pwscf) :
    (cs.foldl dispatchCard p).species = p.species := by
  induction cs generalizing p with
  | nil => rfl
  | cons hd tl ih => rw [List.foldl_cons, ih, dispatchCard_species]

theorem dispatchCard_no_reserved (p : Pwscf) (c : Card)
    (h : alookup p.cards "atomic_species" = Option.none) :
    alookup (dispatchCard p c).cards "atomic_species" = Option.none := by
  unfold dispatchCard
  by_cases h1 : c.name = "control"
  · simpa [h1] using h
  · by_cases h2 : c.name = "system"
    · simpa [h1, h2] using h
    · by_cases h3 : c.name = "electrons"
      · simpa [h1, h2, h3] using h
      · by_cases h4 : c.name = "k_points"
        · simpa [h1, h2, h3, h4] using h
        · by_cases h5 : c.name = "atomic_species"
          · simpa [h1, h2, h3, h4, h5] using h
          · simpa [h1, h2, h3, h4, h5] using
              (alookup_aset_ne p.cards c.name "atomic_species" c h5).trans h

theorem dispatch_foldl_no_reserved (cs : List Card) (p : Pwscf)
    (h : alookup p.cards "atomic_species" = Option.none) :
    alookup (cs.foldl dispatchCard p).cards "atomic_species" = Option.none := by
  induction cs generalizing p with
  | nil => exact h
  | cons hd tl ih => exact ih (dispatchCard p hd) (dispatchCard_no_reserved p hd h)

theorem transplantOne_skip (pr : Pwscf × List (String × Namelist)) (t : String)
    (h : alookup pr.2 t = Option.none) : transplantOne pr t = pr := by
  unfold transplantOne
  rw [h]

theorem transplantOne_control (pr : Pwscf × List (String × Namelist)) (nt : Namelist)
    (h : alookup pr.2 "control" = some nt) :
    transplantOne pr "control" =
      ({ pr.1 with control := nt.pairs.foldl (fun nl kv => nl.set kv.1 kv.2) pr.1.control },
       aremove pr.2 "control") := by
  unfold transplantOne
  rw [h]
  rfl

theorem transplantOne_system (pr : Pwscf × List (String × Namelist)) (nt : Namelist)
    (h : alookup pr.2 "system" = some nt) :
    transplantOne pr "system" =
      ({ pr.1 with system := nt.pairs.foldl (fun nl kv => nl.set kv.1 kv.2) pr.1.system },
       aremove pr.2 "system") := by
  unfold transplantOne
  rw [h]
  rfl

theorem transplantOne_electrons (pr : Pwscf × List (String × Namelist)) (nt : Namelist)
    (h : alookup pr.2 "electrons" = some nt) :
    transplantOne pr "electrons" =
      ({ pr.1 with electrons := nt.pairs.foldl (fun nl kv => nl.set kv.1 kv.2) pr.1.electrons },
       aremove pr.2 "electrons") := by
  unfold transplantOne
  rw [h]
  rfl

theorem read_single_control (p : Pwscf) (nl0 : Namelist)
    (hs : alookup p.namelists "system" = Option.none)
    (he : alookup p.namelists "electrons" = Option.none)
    (hk : alookup p.namelists "k_points" = Option.none) :
    read p ⟨[("control", nl0)], []⟩ false =
      { p with control := nl0.pairs.foldl (fun nl kv => nl.set kv.1 kv.2) p.control,
               namelists := aremove (aset p.namelists "control" nl0) "control" } := by
  have e1 : alookup (aset p.namelists "control" nl0) "control" = some nl0 :=
    alookup_aset_self _ _ _
  have e2 : alookup (aremove (aset p.namelists "control" nl0) "control") "system" =
      Option.none := by
    rw [alookup_aremove_ne _ _ _ (by decide), alookup_aset_ne _ _ _ _ (by decide)]
    exact hs
  have e3 : alookup (aremove (aset p.namelists "control" nl0) "control") "electrons" =
      Option.none := by
    rw [alookup_aremove_ne _ _ _ (by decide), alookup_aset_ne _ _ _ _ (by decide)]
    exact he
  have e4 : alookup (aremove (aset p.namelists "control" nl0) "control") "k_points" =
      Option.none := by
    rw [alookup_aremove_ne _ _ _ (by decide), alookup_aset_ne _ _ _ _ (by decide)]
    exact hk
  simp [read, traitNames, transplantOne, e1, e2, e3, e4]

theorem read_single_system (p : Pwscf) (nl0 : Namelist)
    (hc : alookup p.namelists "control" = Option.none)
    (he : alookup p.namelists "electrons" = Option.none)
    (hk : alookup p.namelists "k_points" = Option.none) :
    read p ⟨[("system", nl0)], []⟩ false =
      { p with system := nl0.pairs.foldl (fun nl kv => nl.set kv.1 kv.2) p.system,
               namelists := aremove (aset p.namelists "system" nl0) "system" } := by
  have e0 : alookup (aset p.namelists "system" nl0) "control" = Option.none := by
    rw [alookup_aset_ne _ _ _ _ (by decide)]
    exact hc
  have e1 : alookup (aset p.namelists "system" nl0) "system" = some nl0 :=
    alookup_aset_self _ _ _
  have e3 : alookup (aremove (aset p.namelists "system" nl0) "system") "electrons" =
      Option.none := by
    rw [alookup_aremove_ne _ _ _ (by decide), alookup_aset_ne _ _ _ _ (by decide)]
    exact he
  have e4 : alookup (aremove (aset p.namelists "system" nl0) "system") "k_points" =
      Option.none := by
    rw [alookup_aremove_ne _ _ _ (by decide), alookup_aset_ne _ _ _ _ (by decide)]
    exact hk
  simp [read, traitNames, transplantOne, e0, e1, e3, e4]

theorem read_single_electrons (p : Pwscf) (nl0 : Namelist)
    (hc : alookup p.namelists "control" = Option.none)
    (hs : alookup p.namelists "system" = Option.none)
    (hk : alookup p.namelists "k_points" = Option.none) :
    read p ⟨[("electrons", nl0)], []⟩ false =
      { p with electrons := nl0.pairs.foldl (fun nl kv => nl.set kv.1 kv.2) p.electrons,
               namelists := aremove (aset p.namelists "electrons" nl0) "electrons" } := by
  have e0 : alookup (aset p.namelists "electrons" nl0) "control" = Option.none := by
    rw [alookup_aset_ne _ _ _ _ (by decide)]
    exact hc
  have e1 : alookup (aset p.namelists "electrons" nl0) "system" = Option.none := by
    rw [alookup_aset_ne _ _ _ _ (by decide)]
    exact hs
  have e2 : alookup (aset p.namelists "electrons" nl0) "electrons" = some nl0 :=
    alookup_aset_self _ _ _
  have e4 : alookup (aremove (aset p.namelists "electrons" nl0) "electrons") "k_points" =
      Option.none := by
    rw [alookup_aremove_ne _ _ _ (by decide), alookup_aset_ne _ _ _ _ (by decide)]
    exact hk
  simp [read, traitNames, transplantOne, e0, e1, e2, e4]

/-- C1: the claim says the atomic-species card produced for atom types
`["Si", "O", "Si"]` (species registered for both, existence check
always succeeding) contains exactly one `Si` line and one `O` line, in
deterministic first-seen order.  The code instead never produces the
card: for every admissible enumeration of the type set, the very first
iteration of `_atomic_species_card` raises (the mass lookup reads the
unbound variable `name`), so no line is ever emitted — and the
enumeration itself iterates an unordered Python `set`, with no
first-seen or cross-run order guarantee. -/
theorem c1_species_card_never_produced (order : List String)
    (h : SetEnum (sioAtoms.map Atom.type) order) :
    ∃ e, atomic_species_card sioDeck order alwaysExists = Except.error e := by
  obtain ⟨-, hsub, hsup⟩ := h
  cases order with
  | nil =>
    have hsi : "Si" ∈ ([] : List String) := hsup "Si" (by simp [sioAtoms])
    simp at hsi
  | cons hd tl =>
    have hmem : hd = "Si" ∨ hd = "O" ∨ hd = "Si" := by
      simpa [sioAtoms] using hsub hd (by simp)
    rcases hmem with h1 | h1 | h1 <;> subst h1 <;>
      exact ⟨PyExc.nameError "name", rfl⟩

/-- C1 witness: the concrete enumeration `["Si", "O"]` is admissible
and the card construction errors on it. -/
theorem c1_witness :
    SetEnum (sioAtoms.map Atom.type) ["Si", "O"] ∧
    ∃ e, atomic_species_card sioDeck ["Si", "O"] alwaysExists = Except.error e :=
  ⟨by decide, c1_species_card_never_produced ["Si", "O"] (by decide)⟩

/-- C2 counterexample: with `foo` bound in both extension registries,
attribute resolution returns the card, not the namelist — refuting the
claimed namelist-before-card priority. -/
theorem c2_counterexample :
    resolveAttr deckFoo "foo" = Except.ok (Section.card cardFoo) ∧
    resolveAttr deckFoo "foo" ≠ Except.ok (Section.nl nlFoo) := by
  exact ⟨rfl, by decide⟩

/-- C2 (amended): for every section name not statically bound on the
deck, attribute resolution consults the extension-card registry first
and the extension-namelist registry second (schema fields always win,
as shown for `control`), and raises `AttributeError` exactly when
neither registry binds the name. -/
theorem c2_resolution_order (p : Pwscf) (name : String)
    (h : name ∉ instanceBound) :
    resolveAttr p name =
      (match alookup p.cards name with
       | some c => Except.ok (Section.card c)
       | Option.none =>
         match alookup p.namelists name with
         | some n => Except.ok (Section.nl n)
         | Option.none => Except.error (PyExc.attributeError name)) ∧
    resolveAttr p "control" = Except.ok (Section.nl p.control) := by
  simp only [instanceBound, List.mem_cons, List.not_mem_nil, or_false, not_or] at h
  obtain ⟨h1, h2, h3, h4, h5, -⟩ := h
  refine ⟨?_, rfl⟩
  unfold resolveAttr
  rw [if_neg h1, if_neg h2, if_neg h3, if_neg h4, if_neg h5]

/-- C2 witness: the amended resolution order evaluated on a concrete
deck and the unbound name `bar`. -/
theorem c2_witness :
    "bar" ∉ instanceBound ∧
    (resolveAttr deckFoo "bar" =
      (match alookup deckFoo.cards "bar" with
       | some c => Except.ok (Section.card c)
       | Option.none =>
         match alookup deckFoo.namelists "bar" with
         | some n => Except.ok (Section.nl n)
         | Option.none => Except.error (PyExc.attributeError "bar")) ∧
     resolveAttr deckFoo "control" = Except.ok (Section.nl deckFoo.control)) :=
  ⟨by decide, c2_resolution_order deckFoo "bar" (by decide)⟩

/-- C3: the claim says `add_card` with the reserved name
`atomic_species` (not already resolving to a card) logs a warning and
returns without raising.  In the code that branch reads the local
`card` before it is ever assigned, so the call raises
`UnboundLocalError` instead (the extension-card registry is left
unchanged only because the call aborts). -/
theorem c3_add_card_reserved_raises (p : Pwscf) (v s : PValue)
    (h : alookup p.cards "atomic_species" = Option.none) :
    add_card p "atomic_species" v s = Except.error (PyExc.unboundLocalError "card") := by
  unfold add_card
  rw [if_neg (by decide), if_neg (by decide), h]

/-- C3 witness: `add_card('atomic_species', ...)` on a fresh deck. -/
theorem c3_witness :
    alookup Pwscf.init.cards "atomic_species" = Option.none ∧
    add_card Pwscf.init "atomic_species" PValue.none PValue.none =
      Except.error (PyExc.unboundLocalError "card") :=
  ⟨rfl, c3_add_card_reserved_raises Pwscf.init PValue.none PValue.none rfl⟩

/-- C4: the claim says the emitted mass follows the fallback chain
override → periodic table → default `1`, never raising.  In the code,
when no override is present the periodic-table step reads the unbound
variable `name` and raises `NameError` (so the default `1` is
unreachable); and even with an override present the line emission
raises `AttributeError`, because `specie.pseudo` is attribute access
on the label string.  `["Si"]` is the admissible enumeration of the
one-atom structure. -/
theorem c4_mass_fallback_unreachable :
    atomic_species_card siNoMassDeck ["Si"] alwaysExists =
      Except.error (PyExc.nameError "name") ∧
    atomic_species_card siMassDeck ["Si"] alwaysExists =
      Except.error (PyExc.attributeError "pseudo") ∧
    SetEnum ["Si"] ["Si"] :=
  ⟨rfl, rfl, by decide⟩

/-- C5: when the merged card set would contain two cards of the same
name — an extension card sharing the schema card's name — `write`
raises `error.internal("Found two cards with the same name")` during
the merge, before anything is handed to the formatter, so no output is
produced and neither card is silently dropped or merged. -/
theorem c5_duplicate_card_aborts_write (p : Pwscf) (c : Card)
    (structureArg : Option (List Atom))
    (h : alookup p.cards p.k_points.name = some c) :
    write p structureArg =
      Except.error (PyExc.internalError "Found two cards with the same name") := by
  simp only [write]
  rw [h]
  rfl

/-- C5 witness: the duplicate-name deck aborts `write`. -/
theorem c5_witness :
    alookup dupDeck.cards dupDeck.k_points.name =
      some { name := "K_POINTS", subtitle := PValue.none, value := PValue.none, extras := [] } ∧
    write dupDeck Option.none =
      Except.error (PyExc.internalError "Found two cards with the same name") :=
  ⟨rfl, c5_duplicate_card_aborts_write dupDeck
    { name := "K_POINTS", subtitle := PValue.none, value := PValue.none, extras := [] }
    Option.none rfl⟩

/-- C6: the claim says writing with atom types `["Fe"]` and an empty
species registry fails with a missing-species error naming `Fe`.  In
the code, `write` never reaches the check at all — it calls the
nonexistent method `_add_atomic_species` and raises `AttributeError`
for any structure — and `_atomic_species_card` itself, on the `Fe`
input, builds the message but then raises `NameError` on
`error.RuntimeError`, because `error` is not imported in that
function; the error the code produces neither is a missing-species
error nor names `Fe`.  (`["Fe"]`, i.e. `feAtoms.map Atom.type`, is
the unique admissible enumeration of the type set.)  No output is
produced. -/
theorem c6_missing_species_error_is_wrong :
    atomic_species_card Pwscf.init (feAtoms.map Atom.type) alwaysExists =
      Except.error (PyExc.nameError "error") ∧
    write Pwscf.init (some feAtoms) =
      Except.error (PyExc.attributeError "_add_atomic_species") ∧
    SetEnum (feAtoms.map Atom.type) (feAtoms.map Atom.type) :=
  ⟨rfl, rfl, by decide⟩

/-- C7: reading a file that contains a card with the reserved name
`atomic_species` completes without error (the embedded `read` is a
total function: the reserved branch only logs and discards), and
afterwards the extension-card registry holds no card of that name,
provided it held none before. -/
theorem c7_reserved_card_discarded (p : Pwscf) (file : PFile) (clear : Bool)
    (_hfile : "atomic_species" ∈ file.cards.map Card.name)
    (h : alookup p.cards "atomic_species" = Option.none) :
    alookup (read p file clear).cards "atomic_species" = Option.none := by
  simp only [read]
  apply dispatch_foldl_no_reserved
  change alookup ((traitNames.foldl transplantOne _).1).cards "atomic_species" = Option.none
  rw [transplant_foldl_cards]
  cases clear
  · exact h
  · rfl

/-- C7 witness: reading the reserved-name file into a fresh deck. -/
theorem c7_witness :
    "atomic_species" ∈ reservedFile.cards.map Card.name ∧
    alookup Pwscf.init.cards "atomic_species" = Option.none ∧
    alookup (read Pwscf.init reservedFile true).cards "atomic_species" = Option.none :=
  ⟨by decide, rfl,
    c7_reserved_card_discarded Pwscf.init reservedFile true (by decide) rfl⟩

/-- C9: `read` with `clear = true` on an empty file leaves every schema
field present but emptied (the namelist fields hold no keys; the
`k_points` card keeps its name and loses subtitle, value and attached
attributes) and both extension registries empty, for every starting
deck state. -/
theorem c9_clear_read_resets (p : Pwscf) :
    (read p ⟨[], []⟩ true).control = Namelist.mk [] ∧
    (read p ⟨[], []⟩ true).system = Namelist.mk [] ∧
    (read p ⟨[], []⟩ true).electrons = Namelist.mk [] ∧
    (read p ⟨[], []⟩ true).k_points =
      { name := p.k_points.name, subtitle := PValue.none,
        value := PValue.none, extras := [] } ∧
    (read p ⟨[], []⟩ true).namelists = [] ∧
    (read p ⟨[], []⟩ true).cards = [] :=
  ⟨rfl, rfl, rfl, rfl, rfl, rfl⟩

/-- C8: after reading a file that contains a namelist named like a
schema field (here without clearing, which makes the merge visible),
every key of the file namelist has been transplanted into that schema
field's namelist with its file value, keys absent from the file keep
their prior value (field-by-field merge, not wholesale replacement),
and no extension namelist of that name remains in the registry.  The
four `alookup p.namelists _ = none` hypotheses are the deck invariant
that the extension registry never binds trait names. -/
theorem c8_read_merges_schema_namelist (p : Pwscf) (tname : String)
    (kvs : List (String × PValue)) (k : String)
    (h1 : tname = "control" ∨ tname = "system" ∨ tname = "electrons")
    (h2 : (kvs.map Prod.fst).Nodup)
    (h3c : alookup p.namelists "control" = Option.none)
    (h3s : alookup p.namelists "system" = Option.none)
    (h3e : alookup p.namelists "electrons" = Option.none)
    (h3k : alookup p.namelists "k_points" = Option.none) :
    alookup (read p ⟨[(tname, ⟨kvs⟩)], []⟩ false).namelists tname = Option.none ∧
    (getNlField (read p ⟨[(tname, ⟨kvs⟩)], []⟩ false) tname).get k =
      (match alookup kvs k with
       | some v => some v
       | Option.none => (getNlField p tname).get k) := by
  rcases h1 with h1 | h1 | h1 <;> subst h1
  · rw [read_single_control p ⟨kvs⟩ h3s h3e h3k]
    refine ⟨alookup_aremove_self _ _, ?_⟩
    simpa [getNlField] using get_foldl_set kvs p.control k h2
  · rw [read_single_system p ⟨kvs⟩ h3c h3e h3k]
    refine ⟨alookup_aremove_self _ _, ?_⟩
    simpa [getNlField] using get_foldl_set kvs p.system k h2
  · rw [read_single_electrons p ⟨kvs⟩ h3c h3s h3k]
    refine ⟨alookup_aremove_self _ _, ?_⟩
    simpa [getNlField] using get_foldl_set kvs p.electrons k h2

/-- C8 witness: reading a file whose `system` namelist holds
`nbnd = 8` into a fresh deck. -/
theorem c8_witness :
    ("system" = "control" ∨ "system" = "system" ∨ "system" = "electrons") ∧
    (nbndPairs.map Prod.fst).Nodup ∧
    alookup Pwscf.init.namelists "control" = Option.none ∧
    alookup Pwscf.init.namelists "system" = Option.none ∧
    alookup Pwscf.init.namelists "electrons" = Option.none ∧
    alookup Pwscf.init.namelists "k_points" = Option.none ∧
    (alookup (read Pwscf.init ⟨[("system", ⟨nbndPairs⟩)], []⟩ false).namelists "system" =
        Option.none ∧
     (getNlField (read Pwscf.init ⟨[("system", ⟨nbndPairs⟩)], []⟩ false) "system").get "nbnd" =
       (match alookup nbndPairs "nbnd" with
        | some v => some v
        | Option.none => (getNlField Pwscf.init "system").get "nbnd")) :=
  ⟨by decide, by decide, rfl, rfl, rfl, rfl,
    c8_read_merges_schema_namelist Pwscf.init "system" nbndPairs "nbnd"
      (by decide) (by decide) rfl rfl rfl rfl⟩

/-- C10: `read` — with or without clearing — never touches the species
registry: whatever file is read, the deck's species mapping is exactly
what it was before. -/
theorem c10_read_preserves_species (p : Pwscf) (file : PFile) (clear : Bool) :
    (read p file clear).species = p.species := by
  simp only [read]
  rw [dispatch_foldl_species]
  change ((traitNames.foldl transplantOne _).1).species = p.species
  rw [transplant_foldl_species]
  cases clear
  · rfl
  · rfl

end Pylada
